import Mathlib

/-
Verification of the health_report_agentic_ai pipeline orchestrator
specification against the repository.

The repository splits into two parts:

* the pipeline orchestrator core (Artifact Store, Stage Runner,
  Orchestrator, Execution Report) described by the specification; its
  implementation (`medical_orchestrator.py` and the agent modules) is not
  among the available source files, so the definitions below that concern
  it are modelled from the specification text and are marked as such;

* the upload web application, whose source is available: the upload POST
  handler (writes the received file into the input directory), the
  clear-input POST handler (deletes every file of the input directory and
  reports the count), and the client-side file selection handler
  `handleFileSelect` (de-duplicates chosen files by name and size against
  the current selection).  These are embedded directly from the source.

Machine bytes are modelled as `List Nat`; all state is passed explicitly.
-/

namespace Orchestrator

/-! ## Artifact Store -/

abbrev RunId := String
abbrev ArtifactName := String
abbrev Payload := List Nat

/-- Modelled from the spec: an artifact is a payload plus metadata (the
stage that produced it); its identity, the (run identifier, logical name)
pair, is the key under which the store holds it. -/
structure Artifact where
  payload : Payload
  producingStage : String
deriving DecidableEq

/-- Modelled from the spec: the Artifact Store maps (run identifier,
artifact name) keys to artifacts, on durable storage.  Represented as an
association list; `put` prepends, so the head is the newest write. -/
abbrev Store := List ((RunId × ArtifactName) × Artifact)

inductive StoreError where
  | ArtifactConflict
  | ArtifactMissing
deriving DecidableEq

/-- Modelled from the spec: `exists(runId, name) -> bool`. -/
def existsArtifact (s : Store) (r : RunId) (n : ArtifactName) : Bool :=
  s.any (fun e => decide (e.1 = (r, n)))

/-- Modelled from the spec: `put(runId, name, payload, producingStage)`
writes the payload under (runId, name) and fails with `ArtifactConflict`
if (runId, name) already exists; on success the returned store holds the
new artifact (writes land on storage before `put` returns). -/
def put (s : Store) (r : RunId) (n : ArtifactName) (p : Payload)
    (producing : String) : Except StoreError Store :=
  if existsArtifact s r n then .error .ArtifactConflict
  else .ok (((r, n), ⟨p, producing⟩) :: s)

/-- Modelled from the spec: `get(runId, name) -> payload`, failing with
`ArtifactMissing` if not present. -/
def get (s : Store) (r : RunId) (n : ArtifactName) : Except StoreError Payload :=
  match s.find? (fun e => decide (e.1 = (r, n))) with
  | some e => .ok e.2.payload
  | none => .error .ArtifactMissing

/-- Modelled from the spec: `list(runId)` returns the references of the
artifacts the run owns. -/
def listRun (s : Store) (r : RunId) : List (RunId × ArtifactName) :=
  (s.filter (fun e => decide (e.1.1 = r))).map (fun e => e.1)

/-- Modelled from the spec: `purge(runId)` removes all artifacts of the
run; the first component reports how many artifacts were removed. -/
def purge (s : Store) (r : RunId) : Nat × Store :=
  ((s.filter (fun e => decide (e.1.1 = r))).length,
   s.filter (fun e => decide (e.1.1 ≠ r)))

/-- Modelled from the spec: the region of the store a run identifier owns
(every key namespaced by that run identifier). -/
def restrictRun (s : Store) (r : RunId) : Store :=
  s.filter (fun e => decide (e.1.1 = r))

/-! ## Stage definitions and the Stage Runner -/

/-- Modelled from the spec: collaborator failures are classified as
Transient (timeouts, rate limits — retried) or Permanent (malformed
input/output — not retried). -/
inductive ErrKind where
  | Transient
  | Permanent
deriving DecidableEq

/-- Modelled from the spec: a collaborator invocation either returns
output payloads for all declared outputs, or raises a classified error.
The outputs are given as a map from declared output name to payload. -/
inductive CollabResult where
  | ok (outs : ArtifactName → Payload)
  | err (kind : ErrKind) (msg : String)

/-- Modelled from the spec: an external collaborator, as the Stage Runner
sees it across retries: the result may depend on the attempt number (a
timeout is represented as the collaborator returning a Transient error). -/
abbrev Collaborator := Nat → List Payload → CollabResult

/-- Modelled from the spec: a Stage Definition declares input artifact
names, output artifact names, a retry budget and the collaborator it
delegates to. -/
structure StageDef where
  name : String
  inputs : List ArtifactName
  outputs : List ArtifactName
  maxRetries : Nat
  collab : Collaborator

inductive StageStatus where
  | Succeeded
  | Failed
  | Skipped
deriving DecidableEq

/-- Modelled from the spec: the error taxonomy recorded in a failed
Stage Outcome. -/
inductive FailKind where
  | MissingDependency
  | Transient
  | Permanent
  | ArtifactConflict
deriving DecidableEq

/-- Modelled from the spec: the Stage Outcome recorded by the Stage
Runner: status, attempt count and error detail of the last failure. -/
structure StageOutcome where
  stageName : String
  status : StageStatus
  attempts : Nat
  errorKind : Option FailKind
  errorMsg : Option String
deriving DecidableEq

def classify : ErrKind → FailKind
  | .Transient => .Transient
  | .Permanent => .Permanent

/-- Modelled from the spec: the attempt loop of the Stage Runner.
`attempt` is the number of the attempt about to run, `retriesLeft` the
remaining retry budget.  A Transient error with budget left retries; a
Transient error with no budget left, or a Permanent error, stops with the
last error's kind and message.  Returns the number of the last attempt
made together with the final result. -/
def attemptLoop (c : Collaborator) (ins : List Payload) :
    Nat → Nat → Nat × Except (ErrKind × String) (ArtifactName → Payload)
  | attempt, 0 =>
    match c attempt ins with
    | .ok outs => (attempt, .ok outs)
    | .err .Permanent m => (attempt, .error (.Permanent, m))
    | .err .Transient m => (attempt, .error (.Transient, m))
  | attempt, rl + 1 =>
    match c attempt ins with
    | .ok outs => (attempt, .ok outs)
    | .err .Permanent m => (attempt, .error (.Permanent, m))
    | .err .Transient _ => attemptLoop c ins (attempt + 1) rl

/-- Modelled from the spec: after the collaborator call fully succeeds,
each declared output is written via `store.put`, in declared order; a
failing write stops the sequence and is a stage failure.  Returns the
store as left behind (writes already made persist) and whether every
write succeeded. -/
def writeOutputs (r : RunId) (stage : String) (outs : ArtifactName → Payload) :
    Store → List ArtifactName → Store × Bool
  | s, [] => (s, true)
  | s, n :: ns =>
    match put s r n (outs n) stage with
    | .ok s2 => writeOutputs r stage outs s2 ns
    | .error _ => (s, false)

/-- Modelled from the spec: `run(stageDef, store, runId) -> StageOutcome`.
Verifies the declared inputs exist (else `MissingDependency`, not
retried), invokes the collaborator under the retry policy, and on success
writes the declared outputs, any write conflict failing the stage. -/
def runStage (sd : StageDef) (s : Store) (r : RunId) : StageOutcome × Store :=
  if sd.inputs.all (fun n => existsArtifact s r n) then
    match attemptLoop sd.collab
        (sd.inputs.map (fun n => (get s r n).toOption.getD [])) 1 sd.maxRetries with
    | (att, .ok outs) =>
      let ws := writeOutputs r sd.name outs s sd.outputs
      ((if ws.2 then
         {stageName := sd.name, status := .Succeeded, attempts := att,
          errorKind := none, errorMsg := none}
        else
         {stageName := sd.name, status := .Failed, attempts := att,
          errorKind := some .ArtifactConflict,
          errorMsg := some "output artifact conflict"}), ws.1)
    | (att, .error em) =>
      ({stageName := sd.name, status := .Failed, attempts := att,
        errorKind := some (classify em.1), errorMsg := some em.2}, s)
  else
    ({stageName := sd.name, status := .Failed, attempts := 0,
      errorKind := some .MissingDependency,
      errorMsg := some "missing input artifact"}, s)

/-! ## Orchestrator -/

/-- Modelled from the spec: the record of a stage that was never
attempted because an earlier stage failed. -/
def skipOutcome (sd : StageDef) : StageOutcome :=
  {stageName := sd.name, status := .Skipped, attempts := 0,
   errorKind := none, errorMsg := none}

/-- Modelled from the spec: the orchestrator control loop drives the
stages strictly in declared order; the first Failed outcome stops the
run, the remaining stages are recorded as Skipped and never attempted.
Returns the per-stage records in order, the final store, and whether
every stage succeeded. -/
def execLoop (r : RunId) : Store → List StageDef → List StageOutcome × Store × Bool
  | s, [] => ([], s, true)
  | s, sd :: rest =>
    let os := runStage sd s r
    if os.1.status = .Succeeded then
      let res := execLoop r os.2 rest
      (os.1 :: res.1, res.2.1, res.2.2)
    else
      (os.1 :: rest.map skipOutcome, os.2, false)

inductive RunStatus where
  | Pending
  | Running
  | Succeeded
  | Failed
deriving DecidableEq

/-- Modelled from the spec: the Execution Report, the serializable record
of a run. -/
structure ExecutionReport where
  runId : RunId
  overall : RunStatus
  records : List StageOutcome
deriving DecidableEq

/-- Modelled from the spec: `execute(stageDefs, initialInputArtifacts) ->
ExecutionReport`: the run ends Succeeded when the final stage's outcome
is Succeeded and Failed the first time any Stage Runner returns a Failed
outcome. -/
def execute (r : RunId) (stages : List StageDef) (s : Store) :
    ExecutionReport × Store :=
  let res := execLoop r s stages
  ({runId := r, overall := if res.2.2 then .Succeeded else .Failed,
    records := res.1}, res.2.1)

/-! ## The fixed pipeline -/

/-- Modelled from the spec: stage 1, extraction. -/
def extractionStage (c : Collaborator) : StageDef :=
  {name := "extraction", inputs := ["raw-input-set"],
   outputs := ["extracted-text"], maxRetries := 2, collab := c}

/-- Modelled from the spec: stage 2, synthesis. -/
def synthesisStage (c : Collaborator) : StageDef :=
  {name := "synthesis", inputs := ["extracted-text"],
   outputs := ["synthesized-report"], maxRetries := 2, collab := c}

/-- Modelled from the spec: stage 3, markup generation. -/
def markupStage (c : Collaborator) : StageDef :=
  {name := "markup-generation", inputs := ["synthesized-report"],
   outputs := ["markup-source"], maxRetries := 2, collab := c}

/-- Modelled from the spec: stage 4, compilation, producing the final
document. -/
def compilationStage (c : Collaborator) : StageDef :=
  {name := "compilation", inputs := ["markup-source"],
   outputs := ["final-document"], maxRetries := 2, collab := c}

/-- Modelled from the spec: the fixed ordered pipeline, one collaborator
per stage. -/
def pipeline (c1 c2 c3 c4 : Collaborator) : List StageDef :=
  [extractionStage c1, synthesisStage c2, markupStage c3, compilationStage c4]

/-- The declared output artifact names of the pipeline stages, by stage
position. -/
def pipelineOutputNames : List (List ArtifactName) :=
  [["extracted-text"], ["synthesized-report"], ["markup-source"],
   ["final-document"]]

/-- Modelled from the spec: the store at the start of a run holds the
initial input artifact "raw-input-set". -/
def initStore (r : RunId) (p : Payload) : Store :=
  [((r, "raw-input-set"), ⟨p, "upload"⟩)]

/-- Modelled from the spec: one end-to-end run of the fixed pipeline. -/
def executePipeline (r : RunId) (p : Payload) (c1 c2 c3 c4 : Collaborator) :
    ExecutionReport × Store :=
  execute r (pipeline c1 c2 c3 c4) (initStore r p)

/-! ## Concrete collaborators (used to exercise the model) -/

/-- A collaborator that always succeeds with payload `[1]` for every
declared output. -/
def alwaysOk : Collaborator := fun _ _ => .ok (fun _ => [1])

/-- A collaborator that always fails permanently. -/
def alwaysPermanent : Collaborator := fun _ _ => .err .Permanent "boom"

/-- A collaborator that fails transiently on every attempt up to `t` and
succeeds from attempt `t + 1` on. -/
def transientThenOk (t : Nat) : Collaborator := fun k _ =>
  if k ≤ t then .err .Transient "rate limit" else .ok (fun _ => [1])

/-- A stage used as a concrete counterexample input: no declared inputs,
declared outputs "a" and "b". -/
def stageAB : StageDef :=
  {name := "stAB", inputs := [], outputs := ["a", "b"], maxRetries := 0,
   collab := alwaysOk}

/-- A store that already holds ("r1", "a"), as a stale earlier write. -/
def preStoreA : Store := [(("r1", "a"), ⟨[9], "old"⟩)]

/-- A stage whose collaborator needs every permitted attempt: transient
failures on attempts 1 and 2, success on attempt 3, retry budget 2. -/
def sdRetry : StageDef :=
  {name := "retry", inputs := [], outputs := ["out"], maxRetries := 2,
   collab := transientThenOk 2}

/-- A stage whose collaborator fails permanently at once. -/
def sdPerm : StageDef :=
  {name := "perm", inputs := [], outputs := ["out"], maxRetries := 2,
   collab := alwaysPermanent}

/-! ## The upload web application (embedded from the source) -/

/-- A file received by the upload POST handler: its name and its bytes. -/
structure FileData where
  name : String
  content : List Nat
deriving DecidableEq

/-- The input directory, as a list of (file name, file bytes) entries. -/
abbrev InputDir := List (String × List Nat)

/-- `fs/promises.writeFile`: replaces the contents if the name exists,
creates the entry otherwise. -/
def writeFileFs (d : InputDir) (n : String) (c : List Nat) : InputDir :=
  if d.any (fun e => decide (e.1 = n)) then
    d.map (fun e => if e.1 = n then (n, c) else e)
  else (n, c) :: d

/-- The JSON body returned by the upload POST handler. -/
structure UploadResponse where
  success : Bool
  message : String
  filename : Option String
deriving DecidableEq

/-- The upload POST handler of `src/unnamed/part_000`: if the form data
has no file field it answers success false, "No file received", touching
nothing; otherwise it awaits the write of the file's bytes into the input
directory and only then answers success true. -/
def uploadPost (file : Option FileData) (d : InputDir) :
    UploadResponse × InputDir :=
  match file with
  | none =>
    ({success := false, message := "No file received", filename := none}, d)
  | some f =>
    ({success := true, message := "File uploaded successfully",
      filename := some f.name}, writeFileFs d f.name f.content)

/-- The JSON body returned by the clear-input POST handler. -/
structure ClearResponse where
  success : Bool
  message : String
  deletedFiles : Option Nat
deriving DecidableEq

/-- The clear-input POST handler of `src/src/app/page.tsx`: reads the
names of all files of the input directory, deletes each of them, and
reports how many it deleted. -/
def clearInputPost (d : InputDir) : ClearResponse × InputDir :=
  let files := d.map (fun e => e.1)
  ({success := true, message := "Input directory cleared successfully",
    deletedFiles := some files.length}, [])

/-- A file as kept in the page's selection state: name, size, MIME type
(the source also keeps the File object itself, irrelevant here). -/
structure UploadedFile where
  name : String
  size : Nat
  mimeType : String
deriving DecidableEq

/-- The duplicate check of `handleFileSelect` in
`src/health_report_ai/src/app/page.tsx`: an already selected entry
matches a chosen file when name and size both coincide. -/
def fileMatches (e f : UploadedFile) : Bool :=
  decide (e.name = f.name) && decide (e.size = f.size)

/-- `handleFileSelect`: walks the chosen files in order, skipping each
one for which some file already in the selection before the event matches
it by name and size, and appends the kept ones to the selection. -/
def handleFileSelect (prev chosen : List UploadedFile) : List UploadedFile :=
  prev ++ chosen.filter (fun f => ! prev.any (fun e => fileMatches e f))

/-! ## Basic store lemmas -/

theorem existsArtifact_nil (r : RunId) (n : ArtifactName) :
    existsArtifact [] r n = false := rfl

theorem existsArtifact_cons (e : (RunId × ArtifactName) × Artifact)
    (s : Store) (r : RunId) (n : ArtifactName) :
    existsArtifact (e :: s) r n =
      (decide (e.1 = (r, n)) || existsArtifact s r n) := by
  simp [existsArtifact]

theorem put_ok_iff (s : Store) (r : RunId) (n : ArtifactName) (p : Payload)
    (st : String) (s2 : Store) :
    put s r n p st = .ok s2 ↔
      existsArtifact s r n = false ∧ s2 = ((r, n), ⟨p, st⟩) :: s := by
  unfold put
  by_cases hc : existsArtifact s r n = true
  · simp [hc]
  · simp only [Bool.not_eq_true] at hc
    simp [hc, eq_comm]

theorem get_cons_self (s : Store) (r : RunId) (n : ArtifactName)
    (a : Artifact) : get (((r, n), a) :: s) r n = .ok a.payload := by
  simp [get, List.find?]

/-- Claim C1: a `put` after a successful `put` under the same
(runId, name) fails with `ArtifactConflict`, for every second payload
(equal to the first or not), and the stored payload is still the first
one. -/
theorem put_put_conflict (s s1 : Store) (r : RunId) (n : ArtifactName)
    (p1 p2 : Payload) (st1 st2 : String)
    (h : put s r n p1 st1 = .ok s1) :
    put s1 r n p2 st2 = .error .ArtifactConflict ∧ get s1 r n = .ok p1 := by
  obtain ⟨hfresh, hs1⟩ := (put_ok_iff s r n p1 st1 s1).mp h
  subst hs1
  constructor
  · have hex : existsArtifact (((r, n), ⟨p1, st1⟩) :: s) r n = true := by
      simp [existsArtifact_cons]
    unfold put
    simp [hex]
  · exact get_cons_self s r n ⟨p1, st1⟩

theorem put_put_conflict_witness :
    (put [] "runW" "art" [1] "w1" = .ok [(("runW", "art"), ⟨[1], "w1"⟩)]) ∧
    (put [(("runW", "art"), ⟨[1], "w1"⟩)] "runW" "art" [2] "w2" =
        .error .ArtifactConflict ∧
      get [(("runW", "art"), ⟨[1], "w1"⟩)] "runW" "art" = .ok [1]) :=
  ⟨rfl, put_put_conflict [] _ "runW" "art" [1] [2] "w1" "w2" rfl⟩

/-- Claim C6: when `put` returns successfully, the payload is already in
the store state that `put` hands back — callers never observe a buffered
or pending write. -/
theorem put_synchronous_write (s s2 : Store) (r : RunId) (n : ArtifactName)
    (p : Payload) (st : String) (h : put s r n p st = .ok s2) :
    get s2 r n = .ok p ∧ existsArtifact s2 r n = true := by
  obtain ⟨hfresh, hs2⟩ := (put_ok_iff s r n p st s2).mp h
  subst hs2
  refine ⟨get_cons_self s r n ⟨p, st⟩, ?_⟩
  simp [existsArtifact_cons]

theorem put_synchronous_write_witness :
    (put [] "runD" "doc" [7] "d1" = .ok [(("runD", "doc"), ⟨[7], "d1"⟩)]) ∧
    (get [(("runD", "doc"), ⟨[7], "d1"⟩)] "runD" "doc" = .ok [7] ∧
      existsArtifact [(("runD", "doc"), ⟨[7], "d1"⟩)] "runD" "doc" = true) :=
  ⟨rfl, put_synchronous_write [] _ "runD" "doc" [7] "d1" rfl⟩

/-- Claim C7: `purge(runId)` leaves no artifact of that run in the store
and reports exactly the number of that run's artifacts present before
the call; the repository's clear-input handler likewise empties the
input directory and reports the number of files it found there. -/
theorem purge_removes_all : ∀ (s : Store) (r : RunId) (d : InputDir),
    (∀ e ∈ (purge s r).2, e.1.1 ≠ r) ∧
    (purge s r).1 = (listRun s r).length ∧
    (clearInputPost d).2 = [] ∧
    (clearInputPost d).1.deletedFiles = some d.length := by
  intro s r d
  refine ⟨?_, ?_, rfl, ?_⟩
  · intro e he
    have hp := List.of_mem_filter he
    simpa using hp
  · simp [purge, listRun]
  · simp [clearInputPost]

/-- Claim C9: the upload handler, given form data with no file field,
answers success false with message "No file received" and leaves the
input directory untouched. -/
theorem upload_no_file : ∀ (d : InputDir),
    (uploadPost none d).1.success = false ∧
    (uploadPost none d).1.message = "No file received" ∧
    (uploadPost none d).2 = d :=
  fun _ => ⟨rfl, rfl, rfl⟩

/-- Claim C10: `handleFileSelect` keeps the previous selection and
appends exactly those chosen files for which no file already in the
selection before the event has both the same name and the same size;
chosen files matching an existing entry in both are skipped. -/
theorem file_select_dedup : ∀ (prev chosen : List UploadedFile),
    (handleFileSelect prev chosen).take prev.length = prev ∧
    ∀ f, f ∈ (handleFileSelect prev chosen).drop prev.length ↔
      (f ∈ chosen ∧ ∀ e ∈ prev, ¬(e.name = f.name ∧ e.size = f.size)) := by
  intro prev chosen
  constructor
  · simp [handleFileSelect, List.take_left]
  · intro f
    simp [handleFileSelect, List.drop_left, List.mem_filter, fileMatches,
      not_and]

/-! ## Stage Runner lemmas -/

theorem writeOutputs_mono (r : RunId) (st : String)
    (outs : ArtifactName → Payload) :
    ∀ (names : List ArtifactName) (s : Store) (r2 : RunId) (n2 : ArtifactName),
      existsArtifact s r2 n2 = true →
      existsArtifact (writeOutputs r st outs s names).1 r2 n2 = true := by
  intro names
  induction names with
  | nil => intro s r2 n2 h; simpa [writeOutputs] using h
  | cons n ns ih =>
    intro s r2 n2 h
    unfold writeOutputs
    cases hput : put s r n (outs n) st with
    | ok s2 =>
      simp only [hput]
      apply ih
      obtain ⟨hf, hs⟩ := (put_ok_iff s r n (outs n) st s2).mp hput
      subst hs
      simp [existsArtifact_cons, h]
    | error e => simpa [hput] using h

theorem writeOutputs_absent (r : RunId) (st : String)
    (outs : ArtifactName → Payload) :
    ∀ (names : List ArtifactName) (s : Store) (r2 : RunId) (n2 : ArtifactName),
      existsArtifact s r2 n2 = false → ¬(r2 = r ∧ n2 ∈ names) →
      existsArtifact (writeOutputs r st outs s names).1 r2 n2 = false := by
  intro names
  induction names with
  | nil => intro s r2 n2 h _; simpa [writeOutputs] using h
  | cons n ns ih =>
    intro s r2 n2 h hnot
    unfold writeOutputs
    cases hput : put s r n (outs n) st with
    | ok s2 =>
      simp only [hput]
      apply ih
      · obtain ⟨hf, hs⟩ := (put_ok_iff s r n (outs n) st s2).mp hput
        subst hs
        rw [existsArtifact_cons]
        have hkey : ((r, n) = (r2, n2)) = False := by
          simp only [eq_iff_iff, iff_false]
          intro hk
          have hsnd : n = n2 := congrArg Prod.snd hk
          refine hnot ⟨(congrArg Prod.fst hk).symm, ?_⟩
          rw [← hsnd]
          exact List.mem_cons_self n ns
        simp [hkey, h]
      · intro hc
        exact hnot ⟨hc.1, List.mem_cons_of_mem n hc.2⟩
    | error e => simpa [hput] using h

theorem writeOutputs_success (r : RunId) (st : String)
    (outs : ArtifactName → Payload) :
    ∀ (names : List ArtifactName) (s : Store),
      (writeOutputs r st outs s names).2 = true →
      ∀ n2 ∈ names, existsArtifact (writeOutputs r st outs s names).1 r n2 = true := by
  intro names
  induction names with
  | nil => intro s _ n2 hn2; simp at hn2
  | cons n ns ih =>
    intro s hw n2 hn2
    unfold writeOutputs at hw ⊢
    cases hput : put s r n (outs n) st with
    | ok s2 =>
      simp only [hput] at hw ⊢
      obtain ⟨hf, hs⟩ := (put_ok_iff s r n (outs n) st s2).mp hput
      rcases List.mem_cons.mp hn2 with h1 | h2
      · apply writeOutputs_mono
        rw [hs, existsArtifact_cons]
        simp [h1]
      · exact ih s2 hw n2 h2
    | error e => simp [hput] at hw

theorem writeOutputs_total (r : RunId) (st : String)
    (outs : ArtifactName → Payload) :
    ∀ (names : List ArtifactName) (s : Store),
      (∀ n2 ∈ names, existsArtifact s r n2 = false) → names.Nodup →
      (writeOutputs r st outs s names).2 = true := by
  intro names
  induction names with
  | nil => intro s _ _; rfl
  | cons n ns ih =>
    intro s hfresh hnodup
    have hn : existsArtifact s r n = false := hfresh n (List.mem_cons_self n ns)
    have hput : put s r n (outs n) st = .ok (((r, n), ⟨outs n, st⟩) :: s) := by
      unfold put
      simp [hn]
    unfold writeOutputs
    simp only [hput]
    rcases List.nodup_cons.mp hnodup with ⟨hnotin, hnodup2⟩
    apply ih
    · intro n2 hn2
      rw [existsArtifact_cons]
      have hne : ((r, n) = (r, n2)) = False := by
        simp only [eq_iff_iff, iff_false]
        intro hk
        have hsnd : n = n2 := congrArg Prod.snd hk
        rw [hsnd] at hnotin
        exact hnotin hn2
      simp [hne, hfresh n2 (List.mem_cons_of_mem n hn2)]
    · exact hnodup2

theorem runStage_store_cases (sd : StageDef) (s : Store) (r : RunId) :
    (runStage sd s r).2 = s ∨
    ∃ outs, (runStage sd s r).2 = (writeOutputs r sd.name outs s sd.outputs).1 := by
  unfold runStage
  split
  · split
    · next att outs heq => exact Or.inr ⟨outs, rfl⟩
    · exact Or.inl rfl
  · exact Or.inl rfl

theorem runStage_status_cases (sd : StageDef) (s : Store) (r : RunId) :
    (runStage sd s r).1.status = .Succeeded ∨
    (runStage sd s r).1.status = .Failed := by
  unfold runStage
  split
  · split
    · next att outs heq =>
      rcases Bool.eq_false_or_eq_true
          (writeOutputs r sd.name outs s sd.outputs).2 with h | h <;> simp [h]
    · exact Or.inr rfl
  · exact Or.inr rfl

theorem runStage_mono (sd : StageDef) (s : Store) (r r2 : RunId)
    (n : ArtifactName) (h : existsArtifact s r2 n = true) :
    existsArtifact (runStage sd s r).2 r2 n = true := by
  rcases runStage_store_cases sd s r with hc | ⟨outs, hc⟩ <;> rw [hc]
  · exact h
  · exact writeOutputs_mono r sd.name outs sd.outputs s r2 n h

theorem runStage_absent (sd : StageDef) (s : Store) (r r2 : RunId)
    (n : ArtifactName) (h : existsArtifact s r2 n = false)
    (hnot : ¬(r2 = r ∧ n ∈ sd.outputs)) :
    existsArtifact (runStage sd s r).2 r2 n = false := by
  rcases runStage_store_cases sd s r with hc | ⟨outs, hc⟩ <;> rw [hc]
  · exact h
  · exact writeOutputs_absent r sd.name outs sd.outputs s r2 n h hnot

theorem runStage_succeeded_outputs (sd : StageDef) (s : Store) (r : RunId)
    (h : (runStage sd s r).1.status = .Succeeded) :
    ∀ n ∈ sd.outputs, existsArtifact (runStage sd s r).2 r n = true := by
  intro n hn
  revert h
  unfold runStage
  split
  · split
    · next att outs heq =>
      intro h
      rcases Bool.eq_false_or_eq_true
          (writeOutputs r sd.name outs s sd.outputs).2 with hw | hw
      · exact writeOutputs_success r sd.name outs sd.outputs s hw n hn
      · simp [hw] at h
    · intro h; simp at h
  · intro h; simp at h

/-- Claim C4, counterexample: a failed output write can leave a proper
non-empty subset of the declared outputs visible.  The stage declares
outputs "a" and "b"; the store already holds a stale ("r1", "a"); the
collaborator succeeds, the write of "a" hits `ArtifactConflict`, and
after the run "a" is present but "b" is not. -/
theorem stage_partial_outputs_possible :
    "a" ∈ stageAB.outputs ∧ "b" ∈ stageAB.outputs ∧
    existsArtifact (runStage stageAB preStoreA "r1").2 "r1" "a" = true ∧
    existsArtifact (runStage stageAB preStoreA "r1").2 "r1" "b" = false ∧
    (runStage stageAB preStoreA "r1").1.status = .Failed := by decide

/-- Claim C4, amended: provided none of the stage's declared outputs is
already present in the store and the declared output names are pairwise
distinct, a stage execution leaves either all declared outputs present or
none of them — a collaborator error, timeout, or failed output write
never exposes a proper non-empty subset. -/
theorem stage_outputs_all_or_none (sd : StageDef) (s : Store) (r : RunId)
    (hfresh : ∀ n ∈ sd.outputs, existsArtifact s r n = false)
    (hnodup : sd.outputs.Nodup) :
    (∀ n ∈ sd.outputs, existsArtifact (runStage sd s r).2 r n = true) ∨
    (∀ n ∈ sd.outputs, existsArtifact (runStage sd s r).2 r n = false) := by
  rcases runStage_status_cases sd s r with h | h
  · exact Or.inl (runStage_succeeded_outputs sd s r h)
  · rcases runStage_store_cases sd s r with hc | ⟨outs, hc⟩
    · right; intro n hn; rw [hc]; exact hfresh n hn
    · left
      intro n hn
      rw [hc]
      have ht := writeOutputs_total r sd.name outs sd.outputs s hfresh hnodup
      exact writeOutputs_success r sd.name outs sd.outputs s ht n hn

theorem stage_outputs_all_or_none_witness :
    ((∀ n ∈ stageAB.outputs, existsArtifact ([] : Store) "r1" n = false) ∧
      stageAB.outputs.Nodup) ∧
    ((∀ n ∈ stageAB.outputs,
        existsArtifact (runStage stageAB [] "r1").2 "r1" n = true) ∨
      (∀ n ∈ stageAB.outputs,
        existsArtifact (runStage stageAB [] "r1").2 "r1" n = false)) :=
  ⟨⟨by decide, by decide⟩,
   stage_outputs_all_or_none stageAB [] "r1" (by decide) (by decide)⟩

/-! ## Retry policy -/

theorem attemptLoop_permanent (c : Collaborator) (ins : List Payload)
    (a rl : Nat) (m : String) (h : c a ins = .err .Permanent m) :
    attemptLoop c ins a rl = (a, .error (.Permanent, m)) := by
  cases rl <;> simp [attemptLoop, h]

theorem attemptLoop_transient_then_ok (c : Collaborator) (ins : List Payload)
    (f : ArtifactName → Payload) :
    ∀ (rl a : Nat),
      (∀ k, a ≤ k → k < a + rl → ∃ m, c k ins = .err .Transient m) →
      c (a + rl) ins = .ok f →
      attemptLoop c ins a rl = (a + rl, .ok f) := by
  intro rl
  induction rl with
  | zero =>
    intro a _ hok
    simp only [Nat.add_zero] at hok ⊢
    simp [attemptLoop, hok]
  | succ k ih =>
    intro a htr hok
    obtain ⟨m, hm⟩ := htr a (le_refl a) (by omega)
    have h1 : attemptLoop c ins a (k + 1) = attemptLoop c ins (a + 1) k := by
      simp [attemptLoop, hm]
    have hshift : a + 1 + k = a + (k + 1) := by omega
    have h2 := ih (a + 1) (fun k2 hk1 hk2 => htr k2 (by omega) (by omega))
      (by rw [hshift]; exact hok)
    rw [h1, h2, hshift]

/-- Claim C5: Transient collaborator errors are retried up to the
stage's retry budget, Permanent errors fail the stage on the first
attempt without retry; a stage whose collaborator fails transiently on
every attempt but the last permitted one ends Succeeded with an attempt
count of maxRetries + 1, and a stage whose collaborator fails
permanently ends Failed after exactly one attempt with kind Permanent. -/
theorem stage_retry_policy :
    (∀ (sd : StageDef) (s : Store) (r : RunId) (f : ArtifactName → Payload),
      sd.inputs.all (fun n => existsArtifact s r n) = true →
      (∀ n ∈ sd.outputs, existsArtifact s r n = false) →
      sd.outputs.Nodup →
      (∀ k ps, 1 ≤ k → k ≤ sd.maxRetries →
        ∃ m, sd.collab k ps = .err .Transient m) →
      (∀ ps, sd.collab (sd.maxRetries + 1) ps = .ok f) →
      (runStage sd s r).1.status = .Succeeded ∧
        (runStage sd s r).1.attempts = sd.maxRetries + 1) ∧
    (∀ (sd : StageDef) (s : Store) (r : RunId) (m : String),
      sd.inputs.all (fun n => existsArtifact s r n) = true →
      (∀ ps, sd.collab 1 ps = .err .Permanent m) →
      (runStage sd s r).1.status = .Failed ∧
        (runStage sd s r).1.attempts = 1 ∧
        (runStage sd s r).1.errorKind = some .Permanent) := by
  constructor
  · intro sd s r f hin hfresh hnodup htr hok
    have hAL := attemptLoop_transient_then_ok sd.collab
      (sd.inputs.map (fun n => (get s r n).toOption.getD [])) f
      sd.maxRetries 1
      (fun k hk1 hk2 => htr k _ hk1 (by omega))
      (by rw [Nat.add_comm]; exact hok _)
    have hws := writeOutputs_total r sd.name f sd.outputs s hfresh hnodup
    unfold runStage
    rw [if_pos hin, hAL]
    simp [hws, Nat.add_comm]
  · intro sd s r m hin hperm
    have hAL := attemptLoop_permanent sd.collab
      (sd.inputs.map (fun n => (get s r n).toOption.getD []))
      1 sd.maxRetries m (hperm _)
    unfold runStage
    rw [if_pos hin, hAL]
    simp [classify]

theorem stage_retry_policy_witness :
    ((sdRetry.inputs.all (fun n => existsArtifact ([] : Store) "rw" n) = true ∧
      (∀ n ∈ sdRetry.outputs, existsArtifact ([] : Store) "rw" n = false) ∧
      sdRetry.outputs.Nodup) ∧
      (runStage sdRetry [] "rw").1.status = .Succeeded ∧
      (runStage sdRetry [] "rw").1.attempts = sdRetry.maxRetries + 1) ∧
    ((runStage sdPerm [] "rp").1.status = .Failed ∧
      (runStage sdPerm [] "rp").1.attempts = 1 ∧
      (runStage sdPerm [] "rp").1.errorKind = some .Permanent) := by
  constructor
  · refine ⟨⟨by decide, by decide, by decide⟩, ?_⟩
    exact stage_retry_policy.1 sdRetry [] "rw" (fun _ => [1]) (by decide)
      (by decide) (by decide)
      (fun k ps h1 h2 => ⟨"rate limit", by
        have h2x : k ≤ 2 := h2
        show transientThenOk 2 k ps = _
        unfold transientThenOk
        rw [if_pos h2x]⟩)
      (fun ps => by
        show transientThenOk 2 3 ps = _
        unfold transientThenOk
        rw [if_neg (by omega)])
  · exact stage_retry_policy.2 sdPerm [] "rp" "boom" (by decide)
      (fun ps => rfl)

/-! ## Orchestrator loop lemmas -/

theorem execLoop_cons_succ (r : RunId) (sd : StageDef) (rest : List StageDef)
    (s : Store) (h : (runStage sd s r).1.status = .Succeeded) :
    execLoop r s (sd :: rest) =
      ((runStage sd s r).1 :: (execLoop r (runStage sd s r).2 rest).1,
       (execLoop r (runStage sd s r).2 rest).2.1,
       (execLoop r (runStage sd s r).2 rest).2.2) := by
  simp [execLoop, h]

theorem execLoop_cons_fail (r : RunId) (sd : StageDef) (rest : List StageDef)
    (s : Store) (h : ¬(runStage sd s r).1.status = .Succeeded) :
    execLoop r s (sd :: rest) =
      ((runStage sd s r).1 :: rest.map skipOutcome, (runStage sd s r).2,
       false) := by
  simp [execLoop, h]

theorem execLoop_fail_fast (r : RunId) :
    ∀ (stages : List StageDef) (s : Store) (j : Nat) (o : StageOutcome),
      (execLoop r s stages).1.get? j = some o → o.status = .Failed →
      (execLoop r s stages).2.2 = false ∧
      ∀ i oi, j < i → (execLoop r s stages).1.get? i = some oi →
        oi.status = .Skipped ∧ oi.attempts = 0 := by
  intro stages
  induction stages with
  | nil => intro s j o hj hF; simp [execLoop] at hj
  | cons sd rest ih =>
    intro s j o hj hF
    by_cases hS : (runStage sd s r).1.status = .Succeeded
    · rw [execLoop_cons_succ r sd rest s hS] at hj ⊢
      cases j with
      | zero =>
        simp at hj
        subst hj
        exact absurd (hS.symm.trans hF) (by decide)
      | succ k =>
        simp only [List.get?_cons_succ] at hj
        obtain ⟨hok, hlater⟩ := ih (runStage sd s r).2 k o hj hF
        refine ⟨hok, ?_⟩
        intro i oi hji hio
        cases i with
        | zero => omega
        | succ i2 =>
          simp only [List.get?_cons_succ] at hio
          exact hlater i2 oi (by omega) hio
    · rw [execLoop_cons_fail r sd rest s hS] at hj ⊢
      refine ⟨rfl, ?_⟩
      intro i oi hji hio
      cases i with
      | zero => omega
      | succ i2 =>
        simp only [List.get?_cons_succ, List.get?_map] at hio
        cases hrest : rest.get? i2 with
        | none => rw [hrest] at hio; simp at hio
        | some sd2 =>
          rw [hrest] at hio
          simp at hio
          rw [← hio]
          exact ⟨rfl, rfl⟩

theorem execLoop_failed_outputs_absent (r : RunId) :
    ∀ (stages : List StageDef) (s : Store) (j : Nat) (o : StageOutcome)
      (n : ArtifactName),
      (execLoop r s stages).1.get? j = some o → o.status = .Failed →
      existsArtifact s r n = false →
      (∀ m sdm, m ≤ j → stages.get? m = some sdm → n ∉ sdm.outputs) →
      existsArtifact (execLoop r s stages).2.1 r n = false := by
  intro stages
  induction stages with
  | nil => intro s j o n hj hF h0 hm; simp [execLoop] at hj
  | cons sd rest ih =>
    intro s j o n hj hF h0 hm
    by_cases hS : (runStage sd s r).1.status = .Succeeded
    · rw [execLoop_cons_succ r sd rest s hS] at hj ⊢
      cases j with
      | zero =>
        simp at hj
        subst hj
        exact absurd (hS.symm.trans hF) (by decide)
      | succ k =>
        simp only [List.get?_cons_succ] at hj
        have hnout : n ∉ sd.outputs := hm 0 sd (Nat.zero_le _) rfl
        have habs : existsArtifact (runStage sd s r).2 r n = false :=
          runStage_absent sd s r r n h0 (fun hc => hnout hc.2)
        exact ih (runStage sd s r).2 k o n hj hF habs
          (fun m2 sdm hm2 hg => hm (m2 + 1) sdm (by omega) (by simpa using hg))
    · rw [execLoop_cons_fail r sd rest s hS] at hj ⊢
      cases j with
      | zero =>
        have hnout : n ∉ sd.outputs := hm 0 sd (Nat.zero_le _) rfl
        exact runStage_absent sd s r r n h0 (fun hc => hnout hc.2)
      | succ k =>
        simp only [List.get?_cons_succ, List.get?_map] at hj
        cases hrest : rest.get? k with
        | none => rw [hrest] at hj; simp at hj
        | some sd2 =>
          rw [hrest] at hj
          simp at hj
          rw [← hj] at hF
          simp [skipOutcome] at hF

theorem execLoop_mono (r : RunId) :
    ∀ (stages : List StageDef) (s : Store) (r2 : RunId) (n : ArtifactName),
      existsArtifact s r2 n = true →
      existsArtifact (execLoop r s stages).2.1 r2 n = true := by
  intro stages
  induction stages with
  | nil => intro s r2 n h; simpa [execLoop] using h
  | cons sd rest ih =>
    intro s r2 n h
    by_cases hS : (runStage sd s r).1.status = .Succeeded
    · rw [execLoop_cons_succ r sd rest s hS]
      exact ih _ r2 n (runStage_mono sd s r r2 n h)
    · rw [execLoop_cons_fail r sd rest s hS]
      exact runStage_mono sd s r r2 n h

theorem execLoop_all_succeeded_ok (r : RunId) :
    ∀ (stages : List StageDef) (s : Store),
      (∀ o ∈ (execLoop r s stages).1, o.status = .Succeeded) →
      (execLoop r s stages).2.2 = true := by
  intro stages
  induction stages with
  | nil => intro s _; rfl
  | cons sd rest ih =>
    intro s hall
    by_cases hS : (runStage sd s r).1.status = .Succeeded
    · rw [execLoop_cons_succ r sd rest s hS] at hall ⊢
      exact ih _ (fun o ho => hall o (List.mem_cons_of_mem _ ho))
    · rw [execLoop_cons_fail r sd rest s hS] at hall
      exact absurd (hall (runStage sd s r).1 (List.mem_cons_self _ _)) hS

theorem execLoop_all_succeeded_outputs (r : RunId) :
    ∀ (stages : List StageDef) (s : Store) (j : Nat) (sd : StageDef),
      (∀ o ∈ (execLoop r s stages).1, o.status = .Succeeded) →
      stages.get? j = some sd →
      ∀ n ∈ sd.outputs,
        existsArtifact (execLoop r s stages).2.1 r n = true := by
  intro stages
  induction stages with
  | nil => intro s j sd _ hj; simp at hj
  | cons sd0 rest ih =>
    intro s j sd hall hj
    by_cases hS : (runStage sd0 s r).1.status = .Succeeded
    · rw [execLoop_cons_succ r sd0 rest s hS] at hall ⊢
      cases j with
      | zero =>
        simp at hj
        subst hj
        intro n hn
        exact execLoop_mono r rest _ r n
          (runStage_succeeded_outputs sd0 s r hS n hn)
      | succ k =>
        simp only [List.get?_cons_succ] at hj
        exact ih _ k sd (fun o ho => hall o (List.mem_cons_of_mem _ ho)) hj
    · rw [execLoop_cons_fail r sd0 rest s hS] at hall
      exact absurd (hall (runStage sd0 s r).1 (List.mem_cons_self _ _)) hS

/-! ## Pipeline shape lemmas -/

theorem existsArtifact_initStore (r r2 : RunId) (p : Payload)
    (n : ArtifactName) (hne : ¬ n = "raw-input-set") :
    existsArtifact (initStore r p) r2 n = false := by
  have hk : ¬ ((r, "raw-input-set") = (r2, n)) := by
    intro h
    exact hne (congrArg Prod.snd h).symm
  simp [initStore, existsArtifact, hk]

theorem pipeline_get_outputs (c1 c2 c3 c4 : Collaborator) (m : Nat)
    (sdm : StageDef) (hmg : (pipeline c1 c2 c3 c4).get? m = some sdm) :
    sdm.outputs = (pipelineOutputNames.get? m).getD [] := by
  match m with
  | 0 => simp [pipeline] at hmg; rw [← hmg]; rfl
  | 1 => simp [pipeline] at hmg; rw [← hmg]; rfl
  | 2 => simp [pipeline] at hmg; rw [← hmg]; rfl
  | 3 => simp [pipeline] at hmg; rw [← hmg]; rfl
  | (k + 4) => simp [pipeline] at hmg

theorem pipelineOutputNames_disjoint : ∀ (i m : Fin 4), i ≠ m →
    ∀ n ∈ (pipelineOutputNames.get? i.val).getD [],
      n ∉ (pipelineOutputNames.get? m.val).getD [] := by decide

theorem pipelineOutputNames_not_raw : ∀ (i : Fin 4),
    ∀ n ∈ (pipelineOutputNames.get? i.val).getD [],
      ¬ n = "raw-input-set" := by decide

/-- Claim C2: as soon as a Stage Runner of the pipeline returns a Failed
outcome the run's overall status is Failed, every stage after the
failing one is recorded Skipped with zero attempts (never attempted),
and no artifact declared as an output of those later stages exists in
the store at the end of the run. -/
theorem run_fail_fast (r : RunId) (p : Payload) (c1 c2 c3 c4 : Collaborator)
    (j : Nat) (o : StageOutcome)
    (hj : (executePipeline r p c1 c2 c3 c4).1.records.get? j = some o)
    (hF : o.status = .Failed) :
    (executePipeline r p c1 c2 c3 c4).1.overall = .Failed ∧
    (∀ i oi, j < i →
      (executePipeline r p c1 c2 c3 c4).1.records.get? i = some oi →
      oi.status = .Skipped ∧ oi.attempts = 0) ∧
    (∀ i ns, j < i → pipelineOutputNames.get? i = some ns →
      ∀ n ∈ ns,
        existsArtifact (executePipeline r p c1 c2 c3 c4).2 r n = false) := by
  have hj2 : (execLoop r (initStore r p) (pipeline c1 c2 c3 c4)).1.get? j =
      some o := hj
  obtain ⟨hok, hskip⟩ :=
    execLoop_fail_fast r (pipeline c1 c2 c3 c4) (initStore r p) j o hj2 hF
  refine ⟨?_, ?_, ?_⟩
  · show (if (execLoop r (initStore r p) (pipeline c1 c2 c3 c4)).2.2 then
      RunStatus.Succeeded else RunStatus.Failed) = RunStatus.Failed
    rw [hok]
    rfl
  · intro i oi hji hio
    exact hskip i oi hji hio
  · intro i ns hji hig n hn
    have hi4 : i < 4 := by
      by_contra hge
      push_neg at hge
      have hnone : pipelineOutputNames.get? i = none :=
        List.get?_eq_none.mpr (by simpa [pipelineOutputNames] using hge)
      rw [hnone] at hig
      exact Option.noConfusion hig
    have hn2 : n ∈ (pipelineOutputNames.get? i).getD [] := by
      rw [hig]
      exact hn
    show existsArtifact
      (execLoop r (initStore r p) (pipeline c1 c2 c3 c4)).2.1 r n = false
    apply execLoop_failed_outputs_absent r (pipeline c1 c2 c3 c4)
      (initStore r p) j o n hj2 hF
    · exact existsArtifact_initStore r r p n
        (pipelineOutputNames_not_raw ⟨i, hi4⟩ n hn2)
    · intro m sdm hmj hmg
      have hm4 : m < 4 := by
        by_contra hge
        push_neg at hge
        have hnone : (pipeline c1 c2 c3 c4).get? m = none :=
          List.get?_eq_none.mpr (by simpa [pipeline] using hge)
        rw [hnone] at hmg
        exact Option.noConfusion hmg
      rw [pipeline_get_outputs c1 c2 c3 c4 m sdm hmg]
      exact pipelineOutputNames_disjoint ⟨i, hi4⟩ ⟨m, hm4⟩
        (by simp [Fin.ext_iff]; omega) n hn2

theorem run_fail_fast_witness :
    ((executePipeline "fw" [0] alwaysOk alwaysPermanent alwaysOk
        alwaysOk).1.records.get? 1 =
        some {stageName := "synthesis", status := .Failed, attempts := 1,
              errorKind := some .Permanent, errorMsg := some "boom"} ∧
      ({stageName := "synthesis", status := .Failed, attempts := 1,
        errorKind := some FailKind.Permanent,
        errorMsg := some "boom"} : StageOutcome).status = .Failed) ∧
    ((executePipeline "fw" [0] alwaysOk alwaysPermanent alwaysOk
        alwaysOk).1.overall = .Failed ∧
      (∀ i oi, 1 < i →
        (executePipeline "fw" [0] alwaysOk alwaysPermanent alwaysOk
          alwaysOk).1.records.get? i = some oi →
        oi.status = .Skipped ∧ oi.attempts = 0) ∧
      (∀ i ns, 1 < i → pipelineOutputNames.get? i = some ns →
        ∀ n ∈ ns,
          existsArtifact (executePipeline "fw" [0] alwaysOk alwaysPermanent
            alwaysOk alwaysOk).2 "fw" n = false)) :=
  ⟨⟨by decide, by decide⟩,
   run_fail_fast "fw" [0] alwaysOk alwaysPermanent alwaysOk alwaysOk 1
     {stageName := "synthesis", status := .Failed, attempts := 1,
      errorKind := some .Permanent, errorMsg := some "boom"}
     (by decide) (by decide)⟩

/-- Claim C3: whenever every stage outcome of a pipeline run is
Succeeded, the artifact "final-document" exists in the store at the end
of the run and the Execution Report's overall status is Succeeded. -/
theorem run_all_success_final_document (r : RunId) (p : Payload)
    (c1 c2 c3 c4 : Collaborator)
    (h : ∀ o ∈ (executePipeline r p c1 c2 c3 c4).1.records,
      o.status = .Succeeded) :
    (executePipeline r p c1 c2 c3 c4).1.overall = .Succeeded ∧
    existsArtifact (executePipeline r p c1 c2 c3 c4).2 r
      "final-document" = true := by
  have h2 : ∀ o ∈ (execLoop r (initStore r p) (pipeline c1 c2 c3 c4)).1,
      o.status = .Succeeded := h
  constructor
  · have hok := execLoop_all_succeeded_ok r (pipeline c1 c2 c3 c4)
      (initStore r p) h2
    show (if (execLoop r (initStore r p) (pipeline c1 c2 c3 c4)).2.2 then
      RunStatus.Succeeded else RunStatus.Failed) = RunStatus.Succeeded
    rw [hok]
    rfl
  · show existsArtifact
      (execLoop r (initStore r p) (pipeline c1 c2 c3 c4)).2.1 r
      "final-document" = true
    exact execLoop_all_succeeded_outputs r (pipeline c1 c2 c3 c4)
      (initStore r p) 3 (compilationStage c4) h2 rfl "final-document"
      (by simp [compilationStage])

theorem run_all_success_final_document_witness :
    (∀ o ∈ (executePipeline "wr" [5] alwaysOk alwaysOk alwaysOk
        alwaysOk).1.records, o.status = .Succeeded) ∧
    ((executePipeline "wr" [5] alwaysOk alwaysOk alwaysOk
        alwaysOk).1.overall = .Succeeded ∧
      existsArtifact (executePipeline "wr" [5] alwaysOk alwaysOk alwaysOk
        alwaysOk).2 "wr" "final-document" = true) :=
  ⟨by decide,
   run_all_success_final_document "wr" [5] alwaysOk alwaysOk alwaysOk
     alwaysOk (by decide)⟩

/-! ## Run isolation -/

theorem restrictRun_cons_pos (e : (RunId × ArtifactName) × Artifact)
    (t : Store) (r : RunId) (he : e.1.1 = r) :
    restrictRun (e :: t) r = e :: restrictRun t r := by
  simp [restrictRun, List.filter_cons, he]

theorem restrictRun_cons_neg (e : (RunId × ArtifactName) × Artifact)
    (t : Store) (r : RunId) (he : ¬ e.1.1 = r) :
    restrictRun (e :: t) r = restrictRun t r := by
  simp [restrictRun, List.filter_cons, he]

theorem existsArtifact_restrictRun (r : RunId) (n : ArtifactName) :
    ∀ (s : Store), existsArtifact (restrictRun s r) r n = existsArtifact s r n := by
  intro s
  induction s with
  | nil => rfl
  | cons e t ih =>
    by_cases he : e.1.1 = r
    · rw [restrictRun_cons_pos e t r he, existsArtifact_cons,
        existsArtifact_cons, ih]
    · have hk : ¬ (e.1 = (r, n)) := fun hh => he (by rw [hh])
      rw [restrictRun_cons_neg e t r he, existsArtifact_cons, ih]
      simp [hk]

theorem find?_restrictRun (r : RunId) (n : ArtifactName) :
    ∀ (s : Store),
      (restrictRun s r).find? (fun e => decide (e.1 = (r, n))) =
        s.find? (fun e => decide (e.1 = (r, n))) := by
  intro s
  induction s with
  | nil => rfl
  | cons e t ih =>
    by_cases he : e.1.1 = r
    · rw [restrictRun_cons_pos e t r he]
      by_cases hk : e.1 = (r, n)
      · rw [List.find?_cons_of_pos _ (by simpa using hk),
          List.find?_cons_of_pos _ (by simpa using hk)]
      · rw [List.find?_cons_of_neg _ (by simpa using hk),
          List.find?_cons_of_neg _ (by simpa using hk), ih]
    · have hk : ¬ (e.1 = (r, n)) := fun hh => he (by rw [hh])
      rw [restrictRun_cons_neg e t r he,
        List.find?_cons_of_neg _ (by simpa using hk), ih]

theorem get_restrictRun (r : RunId) (n : ArtifactName) (s : Store) :
    get (restrictRun s r) r n = get s r n := by
  unfold get
  rw [find?_restrictRun r n s]

theorem existsArtifact_eq_of_restrict (s t : Store) (r : RunId)
    (h : restrictRun s r = restrictRun t r) (n : ArtifactName) :
    existsArtifact s r n = existsArtifact t r n := by
  rw [← existsArtifact_restrictRun r n s, ← existsArtifact_restrictRun r n t, h]

theorem get_eq_of_restrict (s t : Store) (r : RunId)
    (h : restrictRun s r = restrictRun t r) (n : ArtifactName) :
    get s r n = get t r n := by
  rw [← get_restrictRun r n s, ← get_restrictRun r n t, h]

theorem all_congr_aux : ∀ (l : List ArtifactName) (f g : ArtifactName → Bool),
    (∀ x ∈ l, f x = g x) → l.all f = l.all g := by
  intro l
  induction l with
  | nil => intro f g _; rfl
  | cons a as ih =>
    intro f g h
    simp only [List.all_cons]
    rw [h a (List.mem_cons_self a as),
      ih f g (fun x hx => h x (List.mem_cons_of_mem a hx))]

theorem map_congr_aux : ∀ (l : List ArtifactName) (f g : ArtifactName → Payload),
    (∀ x ∈ l, f x = g x) → l.map f = l.map g := by
  intro l
  induction l with
  | nil => intro f g _; rfl
  | cons a as ih =>
    intro f g h
    simp only [List.map_cons]
    rw [h a (List.mem_cons_self a as),
      ih f g (fun x hx => h x (List.mem_cons_of_mem a hx))]

theorem writeOutputs_respects (r : RunId) (st : String)
    (outs : ArtifactName → Payload) :
    ∀ (names : List ArtifactName) (s t : Store),
      restrictRun s r = restrictRun t r →
      (writeOutputs r st outs s names).2 = (writeOutputs r st outs t names).2 ∧
      restrictRun (writeOutputs r st outs s names).1 r =
        restrictRun (writeOutputs r st outs t names).1 r := by
  intro names
  induction names with
  | nil => intro s t h; exact ⟨rfl, h⟩
  | cons n ns ih =>
    intro s t h
    have hex : existsArtifact s r n = existsArtifact t r n :=
      existsArtifact_eq_of_restrict s t r h n
    by_cases hc : existsArtifact s r n = true
    · have hct : existsArtifact t r n = true := by rw [← hex]; exact hc
      have hps : put s r n (outs n) st = .error .ArtifactConflict := by
        unfold put; rw [if_pos hc]
      have hpt : put t r n (outs n) st = .error .ArtifactConflict := by
        unfold put; rw [if_pos hct]
      unfold writeOutputs
      rw [hps, hpt]
      exact ⟨rfl, h⟩
    · have hcs : ¬ existsArtifact s r n = true := hc
      have hcts : ¬ existsArtifact t r n = true := by rw [← hex]; exact hcs
      have hps : put s r n (outs n) st = .ok (((r, n), ⟨outs n, st⟩) :: s) := by
        unfold put; rw [if_neg hcs]
      have hpt : put t r n (outs n) st = .ok (((r, n), ⟨outs n, st⟩) :: t) := by
        unfold put; rw [if_neg hcts]
      unfold writeOutputs
      rw [hps, hpt]
      apply ih
      rw [restrictRun_cons_pos _ _ _ rfl, restrictRun_cons_pos _ _ _ rfl, h]

theorem runStage_respects (sd : StageDef) (s t : Store) (r : RunId)
    (h : restrictRun s r = restrictRun t r) :
    (runStage sd s r).1 = (runStage sd t r).1 ∧
    restrictRun (runStage sd s r).2 r = restrictRun (runStage sd t r).2 r := by
  have hall : sd.inputs.all (fun n => existsArtifact s r n) =
      sd.inputs.all (fun n => existsArtifact t r n) :=
    all_congr_aux sd.inputs _ _
      (fun n _ => existsArtifact_eq_of_restrict s t r h n)
  have hins : sd.inputs.map (fun n => (get s r n).toOption.getD []) =
      sd.inputs.map (fun n => (get t r n).toOption.getD []) :=
    map_congr_aux sd.inputs _ _
      (fun n _ => by rw [get_eq_of_restrict s t r h n])
  by_cases hc : sd.inputs.all (fun n => existsArtifact t r n) = true
  · have hcs : sd.inputs.all (fun n => existsArtifact s r n) = true := by
      rw [hall]; exact hc
    unfold runStage
    rw [if_pos hcs, if_pos hc, hins]
    cases hA : attemptLoop sd.collab
        (sd.inputs.map (fun n => (get t r n).toOption.getD [])) 1
        sd.maxRetries with
    | mk att res =>
      cases res with
      | ok outs =>
        obtain ⟨hflag, hrest⟩ :=
          writeOutputs_respects r sd.name outs sd.outputs s t h
        simp only [hA]
        exact ⟨by rw [hflag], hrest⟩
      | error em =>
        simp only [hA]
        exact ⟨trivial, h⟩
  · have hcs : ¬ sd.inputs.all (fun n => existsArtifact s r n) = true := by
      rw [hall]; exact hc
    unfold runStage
    rw [if_neg hcs, if_neg hc]
    exact ⟨rfl, h⟩

theorem execLoop_respects (r : RunId) :
    ∀ (stages : List StageDef) (s t : Store),
      restrictRun s r = restrictRun t r →
      (execLoop r s stages).1 = (execLoop r t stages).1 ∧
      (execLoop r s stages).2.2 = (execLoop r t stages).2.2 ∧
      restrictRun (execLoop r s stages).2.1 r =
        restrictRun (execLoop r t stages).2.1 r := by
  intro stages
  induction stages with
  | nil => intro s t h; exact ⟨rfl, rfl, h⟩
  | cons sd rest ih =>
    intro s t h
    obtain ⟨ho, hst⟩ := runStage_respects sd s t r h
    by_cases hS : (runStage sd s r).1.status = .Succeeded
    · have hSt : (runStage sd t r).1.status = .Succeeded := by
        rw [← ho]; exact hS
      rw [execLoop_cons_succ r sd rest s hS, execLoop_cons_succ r sd rest t hSt]
      obtain ⟨h1, h2, h3⟩ := ih (runStage sd s r).2 (runStage sd t r).2 hst
      exact ⟨by rw [ho, h1], h2, h3⟩
    · have hSt : ¬ (runStage sd t r).1.status = .Succeeded := by
        rw [← ho]; exact hS
      rw [execLoop_cons_fail r sd rest s hS, execLoop_cons_fail r sd rest t hSt]
      exact ⟨by rw [ho], rfl, hst⟩

theorem writeOutputs_additions (r : RunId) (st : String)
    (outs : ArtifactName → Payload) :
    ∀ (names : List ArtifactName) (s : Store),
      ∀ e ∈ (writeOutputs r st outs s names).1, e ∈ s ∨ e.1.1 = r := by
  intro names
  induction names with
  | nil => intro s e he; exact Or.inl he
  | cons n ns ih =>
    intro s e
    unfold writeOutputs
    cases hput : put s r n (outs n) st with
    | ok s2 =>
      simp only [hput]
      intro he
      obtain ⟨hf, hs⟩ := (put_ok_iff s r n (outs n) st s2).mp hput
      rcases ih s2 e he with h1 | h2
      · rw [hs] at h1
        rcases List.mem_cons.mp h1 with h3 | h4
        · right; rw [h3]
        · exact Or.inl h4
      · exact Or.inr h2
    | error err2 =>
      simp only [hput]
      intro he
      exact Or.inl he

theorem runStage_additions (sd : StageDef) (s : Store) (r : RunId) :
    ∀ e ∈ (runStage sd s r).2, e ∈ s ∨ e.1.1 = r := by
  rcases runStage_store_cases sd s r with hc | ⟨outs, hc⟩ <;> rw [hc]
  · intro e he; exact Or.inl he
  · intro e he; exact writeOutputs_additions r sd.name outs sd.outputs s e he

theorem execLoop_additions (r : RunId) :
    ∀ (stages : List StageDef) (s : Store),
      ∀ e ∈ (execLoop r s stages).2.1, e ∈ s ∨ e.1.1 = r := by
  intro stages
  induction stages with
  | nil => intro s e he; exact Or.inl he
  | cons sd rest ih =>
    intro s e he
    by_cases hS : (runStage sd s r).1.status = .Succeeded
    · rw [execLoop_cons_succ r sd rest s hS] at he
      rcases ih (runStage sd s r).2 e he with h1 | h2
      · exact runStage_additions sd s r e h1
      · exact Or.inr h2
    · rw [execLoop_cons_fail r sd rest s hS] at he
      exact runStage_additions sd s r e he

theorem restrictRun_append (s1 s2 : Store) (r : RunId) :
    restrictRun (s1 ++ s2) r = restrictRun s1 r ++ restrictRun s2 r := by
  simp [restrictRun, List.filter_append]

theorem restrictRun_other_nil (s1 : Store) (r1 r2 : RunId) (hne : r1 ≠ r2)
    (h : ∀ e ∈ s1, e.1.1 = r1) : restrictRun s1 r2 = [] := by
  simp only [restrictRun, List.filter_eq_nil]
  intro e he
  rw [h e he]
  simpa using hne

/-- Claim C8: runs with distinct run identifiers use disjoint regions of
the Artifact Store: executing a run is entirely unaffected by artifacts
of a different run identifier (same Execution Report, same own region of
the store — so a re-run under a fresh run identifier never reads any
artifact written by a failed earlier run), and every artifact the run
adds to the store carries its own run identifier. -/
theorem run_isolation (r1 r2 : RunId) (s1 s : Store)
    (stages : List StageDef) (hne : r1 ≠ r2)
    (hs1 : ∀ e ∈ s1, e.1.1 = r1) :
    (execute r2 stages (s1 ++ s)).1 = (execute r2 stages s).1 ∧
    restrictRun (execute r2 stages (s1 ++ s)).2 r2 =
      restrictRun (execute r2 stages s).2 r2 ∧
    ∀ e ∈ (execute r2 stages (s1 ++ s)).2,
      e ∈ s1 ∨ e ∈ s ∨ e.1.1 = r2 := by
  have hrr : restrictRun (s1 ++ s) r2 = restrictRun s r2 := by
    rw [restrictRun_append, restrictRun_other_nil s1 r1 r2 hne hs1]
    rfl
  obtain ⟨h1, h2, h3⟩ := execLoop_respects r2 stages (s1 ++ s) s hrr
  refine ⟨?_, h3, ?_⟩
  · simp only [execute]
    rw [h1, h2]
  · intro e he
    rcases execLoop_additions r2 stages (s1 ++ s) e he with hmem | hr
    · rcases List.mem_append.mp hmem with hq | hq
      · exact Or.inl hq
      · exact Or.inr (Or.inl hq)
    · exact Or.inr (Or.inr hr)

theorem run_isolation_witness :
    (("runA" : RunId) ≠ "runB" ∧
      (∀ e ∈ ([(("runA", "raw-input-set"), ⟨[0], "upload"⟩),
          (("runA", "extracted-text"), ⟨[1], "extraction"⟩)] : Store),
        e.1.1 = "runA")) ∧
    ((execute "runB" (pipeline alwaysOk alwaysOk alwaysOk alwaysOk)
        (([(("runA", "raw-input-set"), ⟨[0], "upload"⟩),
          (("runA", "extracted-text"), ⟨[1], "extraction"⟩)] : Store) ++
          initStore "runB" [5])).1 =
      (execute "runB" (pipeline alwaysOk alwaysOk alwaysOk alwaysOk)
        (initStore "runB" [5])).1 ∧
      restrictRun (execute "runB" (pipeline alwaysOk alwaysOk alwaysOk alwaysOk)
        (([(("runA", "raw-input-set"), ⟨[0], "upload"⟩),
          (("runA", "extracted-text"), ⟨[1], "extraction"⟩)] : Store) ++
          initStore "runB" [5])).2 "runB" =
      restrictRun (execute "runB" (pipeline alwaysOk alwaysOk alwaysOk alwaysOk)
        (initStore "runB" [5])).2 "runB" ∧
      ∀ e ∈ (execute "runB" (pipeline alwaysOk alwaysOk alwaysOk alwaysOk)
        (([(("runA", "raw-input-set"), ⟨[0], "upload"⟩),
          (("runA", "extracted-text"), ⟨[1], "extraction"⟩)] : Store) ++
          initStore "runB" [5])).2,
        e ∈ ([(("runA", "raw-input-set"), ⟨[0], "upload"⟩),
          (("runA", "extracted-text"), ⟨[1], "extraction"⟩)] : Store) ∨
        e ∈ initStore "runB" [5] ∨ e.1.1 = "runB") :=
  ⟨⟨by decide, by decide⟩,
   run_isolation "runA" "runB"
     [(("runA", "raw-input-set"), ⟨[0], "upload"⟩),
      (("runA", "extracted-text"), ⟨[1], "extraction"⟩)]
     (initStore "runB" [5]) (pipeline alwaysOk alwaysOk alwaysOk alwaysOk)
     (by decide) (by decide)⟩

end Orchestrator
